import Mathlib

set_option maxRecDepth 4000

/-!
Verification of the ILAMB confrontation staging, metrics, and scoring engine.

This file shallowly embeds the relevant parts of `src/ILAMB/ilamblib.py`,
`src/ILAMB/Confrontation.py` and `src/ILAMB/GPPFluxnetGlobalMTE.py` as Lean
definitions over exact rational arithmetic (masked-array machinery and
plotting are out of scope), and proves or refutes the frozen claims about
them.  Numeric data is modelled by `ℚ`; the few places where IEEE special
values (inf/NaN) are observable are modelled by the `EFloat` type below.
-/

/-! ## Basic list and string utilities (numpy / Python primitives) -/

/-- Arithmetic mean of a list of rationals (`np.mean` / `np.ma.average` with
no weights); the empty list gives `0` (never used on empty inputs here). -/
def meanQ (xs : List ℚ) : ℚ := xs.sum / xs.length

/-- Binary minimum (Python's `min`), written out so it evaluates by cases. -/
def qmin (a b : ℚ) : ℚ := if a ≤ b then a else b

/-- Binary maximum (Python's `max`), written out so it evaluates by cases. -/
def qmax (a b : ℚ) : ℚ := if a ≤ b then b else a

/-- Minimum of a list (`ndarray.min`), `0` for the empty list. -/
def listMinQ : List ℚ → ℚ
  | [] => 0
  | x :: xs => xs.foldl qmin x

/-- Maximum of a list (`ndarray.max`), `0` for the empty list. -/
def listMaxQ : List ℚ → ℚ
  | [] => 0
  | x :: xs => xs.foldl qmax x

/-- Helper for `argminQ`: scan the remaining list keeping the best value,
its index, and the current index. `np.argmin` returns the FIRST index of
the minimum, hence the strict `<`. -/
def argminQgo : List ℚ → ℚ → Nat → Nat → Nat
  | [], _, bi, _ => bi
  | y :: ys, best, bi, i => if y < best then argminQgo ys y i (i + 1) else argminQgo ys best bi (i + 1)

/-- Index of the first minimum of a list (`np.argmin`); `0` on the empty list. -/
def argminQ : List ℚ → Nat
  | [] => 0
  | x :: xs => argminQgo xs x 0 1

/-- Python's `%` on nonnegative rationals (`t % 365`): `a - b * ⌊a / b⌋`. -/
def qmod (a b : ℚ) : ℚ := a - b * (⌊a / b⌋ : ℤ)

/-- Boolean list-prefix test over characters, used to model Python's
substring operator. -/
def charsPre : List Char → List Char → Bool
  | [], _ => true
  | _ :: _, [] => false
  | c :: cs, d :: ds => c == d && charsPre cs ds

/-- Boolean contiguous-sublist test over characters. -/
def charsInf (a : List Char) : List Char → Bool
  | [] => charsPre a []
  | d :: ds => charsPre a (d :: ds) || charsInf a ds

/-- Python's `sub in s` substring containment on strings. -/
def strHas (s sub : String) : Bool := charsInf sub.data s.data

/-- `reshape((-1,12))` of a flat series whose length is a multiple of 12:
the list of consecutive 12-sample blocks. -/
def reshape12 (l : List ℚ) : List (List ℚ) :=
  (List.range (l.length / 12)).map (fun k => (l.drop (12 * k)).take 12)

/-! ## IEEE special values

`EFloat` models the float results observable in `Bias(..., "score")` when the
reference mean is zero: exact rationals plus the two infinities and NaN.
Only the operations actually used by that code path are defined. -/

/-- A float value: an exact finite rational, `±inf`, or NaN. -/
inductive EFloat
  | fin (q : ℚ)
  | inf (pos : Bool)
  | nan
deriving DecidableEq, Repr

/-- IEEE division `a / b` of finite values: division by (positive) zero
yields `±inf` (or NaN for `0/0`). -/
def edivE : EFloat → EFloat → EFloat
  | .fin a, .fin b =>
    if b = 0 then (if a = 0 then .nan else .inf (decide (0 < a))) else .fin (a / b)
  | _, _ => .nan

/-- IEEE absolute value. -/
def eabs : EFloat → EFloat
  | .fin q => .fin |q|
  | .inf _ => .inf true
  | .nan => .nan

/-- IEEE `1 - x`. -/
def esub1 : EFloat → EFloat
  | .fin q => .fin (1 - q)
  | .inf b => .inf (!b)
  | .nan => .nan

/-- `np.clip(x, 0, 1)`: clamps finite values and infinities, propagates NaN. -/
def clip01 : EFloat → EFloat
  | .fin q => .fin (qmax 0 (qmin 1 q))
  | .inf b => if b then .fin 1 else .fin 0
  | .nan => .nan

/-! ## Statistical metrics library (`src/ILAMB/ilamblib.py`) -/

/-- `DAYS_PER_MONTH` from `ilamblib.py`. -/
def DAYS_PER_MONTH : List ℚ := [31, 28, 31, 30, 31, 30, 31, 31, 30, 31, 30, 31]

/-- Mean of the squared differences `((prediction-reference)**2).mean()`,
the radicand of the RMSE. -/
def sqDiffMean (reference prediction : List ℚ) : ℚ :=
  meanQ ((prediction.zip reference).map (fun p => (p.1 - p.2) ^ 2))

/-- `RootMeanSquaredError` from `ilamblib.py` lines 75-116:
`rmse = np.sqrt(((prediction-reference)**2).mean())`, and
`normalize="maxmin"` divides by `reference.max() - reference.min()`. -/
noncomputable def RootMeanSquaredError (reference prediction : List ℚ) (normalize : String) : ℝ :=
  let rmse : ℝ := Real.sqrt (sqDiffMean reference prediction : ℚ)
  if normalize = "maxmin" then rmse / ((listMaxQ reference - listMinQ reference : ℚ) : ℝ) else rmse

/-- `Bias` from `ilamblib.py` lines 118-170 (unweighted case):
`bias = mean(prediction) - mean(reference)`; `normalize="maxmin"` divides by
`reference.max()-reference.min()`; `normalize="score"` computes
`(1 - abs(bias/mean(reference))).clip(0, 1)`.  The divisions are IEEE
divisions, hence the `EFloat` result. -/
def Bias (reference prediction : List ℚ) (normalize : String) : EFloat :=
  let pmean := meanQ prediction
  let rmean := meanQ reference
  let b0 : EFloat := .fin (pmean - rmean)
  let b1 : EFloat :=
    if normalize = "maxmin" then edivE b0 (.fin (listMaxQ reference - listMinQ reference)) else b0
  if normalize = "score" then clip01 (esub1 (eabs (edivE b1 (.fin rmean)))) else b1

/-- Weighted average of one 12-month block with weights `DAYS_PER_MONTH/365`
(`np.ma.average(..., axis=1, weights=dpm/dpy)`); since the weights sum to 1
this is `Σ dpm_i x_i / 365`. -/
def wavg (xs : List ℚ) : ℚ := (List.zipWith (fun a b => a * b) DAYS_PER_MONTH xs).sum / 365

/-- `AnnualMean` from `ilamblib.py` lines 172-205, first step:
`begin = np.argmin(t[:11] % 365)` — note the slice covers only the first
ELEVEN samples. -/
def annualBegin (t : List ℚ) : Nat := argminQ ((t.take 11).map (fun x => qmod x 365))

/-- `AnnualMean` continued: `end = begin + int((size-begin)/12)*12`, then
day-weighted means of each 12-sample block of `t[begin:end]` and
`var[begin:end]`. -/
def AnnualMean (t var : List ℚ) : List ℚ × List ℚ :=
  let b := annualBegin t
  let len := b + ((t.length - b) / 12) * 12
  ((reshape12 ((t.drop b).take (len - b))).map wavg,
   (reshape12 ((var.drop b).take (len - b))).map wavg)

/-- Modelled from the spec: the annual mean as claim C5 states it, with the
first January-aligned index located by searching a FULL year of samples
(`argmin` of day-of-year over the first 12 samples) before discarding the
leading partial year; otherwise identical to `AnnualMean`. -/
def annualMeanJanAligned (t var : List ℚ) : List ℚ × List ℚ :=
  let b := argminQ ((t.take 12).map (fun x => qmod x 365))
  let len := b + ((t.length - b) / 12) * 12
  ((reshape12 ((t.drop b).take (len - b))).map wavg,
   (reshape12 ((var.drop b).take (len - b))).map wavg)

/-- Slope of the degree-1 least-squares fit through a list of points
(`np.ma.polyfit(x, y, 1)[0]`): `(n Σxy - Σx Σy) / (n Σx² - (Σx)²)`. -/
def lsqSlope (pts : List (ℚ × ℚ)) : ℚ :=
  let n : ℚ := pts.length
  let sx := (pts.map (fun p => p.1)).sum
  let sy := (pts.map (fun p => p.2)).sum
  let sxy := (pts.map (fun p => p.1 * p.2)).sum
  let sxx := (pts.map (fun p => p.1 * p.1)).sum
  (n * sxy - sx * sy) / (n * sxx - sx * sx)

/-- `WindowedTrend` from `ilamblib.py` lines 275-306.  For each sample the
window `[t_i - w/2, t_i + w/2]` is slid inward at the boundaries; then
`np.ma.masked_where(condition, ...)` MASKS the samples satisfying
`tleft <= t <= tright`, so `np.ma.polyfit` fits the line through the samples
OUTSIDE the window (the masking bug is preserved faithfully); `x = t/365 + 1850`
makes the slope var-units per year. -/
def WindowedTrend (t var : List ℚ) (window : ℚ) : List ℚ :=
  t.map (fun ti =>
    let tleft0 := ti - window * (1/2)
    let tright0 := ti + window * (1/2)
    let dl := qmax (t.headD 0 - tleft0) 0
    let tl1 := tleft0 + dl
    let tr1 := tright0 + dl
    let dr := qmax (tr1 - t.getLastD 0) 0
    let tl := tl1 - dr
    let tr := tr1 - dr
    let pts := ((t.zip var).filter (fun p => !(decide (tl ≤ p.1) && decide (p.1 ≤ tr)))).map
      (fun p => (p.1 / 365 + 1850, p.2))
    lsqSlope pts)

/-- Modelled from the spec and the function's own docstring: the windowed
trend fitted to the samples LYING WITHIN the window (same window sliding,
opposite sample selection to `WindowedTrend`). -/
def windowedTrendInWindow (t var : List ℚ) (window : ℚ) : List ℚ :=
  t.map (fun ti =>
    let tleft0 := ti - window * (1/2)
    let tright0 := ti + window * (1/2)
    let dl := qmax (t.headD 0 - tleft0) 0
    let tl1 := tleft0 + dl
    let tr1 := tright0 + dl
    let dr := qmax (tr1 - t.getLastD 0) 0
    let tl := tl1 - dr
    let tr := tr1 - dr
    let pts := ((t.zip var).filter (fun p => decide (tl ≤ p.1) && decide (p.1 ≤ tr))).map
      (fun p => (p.1 / 365 + 1850, p.2))
    lsqSlope pts)

/-! ## Staging (`Confrontation.stageData`, `Confrontation.py` lines 103-202)

A `Var` models the parts of an `ILAMB.Variable.Variable` that staging
touches: a time axis (days since 1850-01-01; `[]` models an absent axis),
a flat data array, and a unit string.  A model collaborator is a
deterministic function from the requested time window to the extracted
`Var` (`ModelResult.extractTimeSeries`).  Floating-point log10 in the
magnitude pass and the unit registry's conversion factors live outside the
sources under `src/`, so they are abstract parameters `gO` and `factor`. -/

/-- A variable: time stamps, data, and a unit string. -/
structure Var where
  time : List ℚ
  data : List ℚ
  unit : String
deriving DecidableEq, Repr

/-- The typed staging errors of `ilamblib` raised by `stageData`. -/
inductive StageErr
  | notTemporal
  | varNotOnTimeScale
  | varsNotComparable
deriving DecidableEq, Repr

/-- Clip a variable to the nearest-sample window `[t0, tf]`
(`begin = argmin(|time - t0|)`, `end = argmin(|time - tf|) + 1`,
then the Python slice `[begin:end]` of both `time` and `data`). -/
def clipVar (t0 tf : ℚ) (v : Var) : Var :=
  let b := argminQ (v.time.map (fun x => |x - t0|))
  let e := argminQ (v.time.map (fun x => |x - tf|)) + 1
  { time := (v.time.drop b).take (e - b), data := (v.data.drop b).take (e - b), unit := v.unit }

/-- `np.allclose(a, b, atol=20)` with numpy's default `rtol=1e-05`:
every pair must satisfy `|a_i - b_i| <= 20 + |b_i| / 100000`. -/
def allcloseT (a b : List ℚ) : Bool :=
  (a.zip b).all (fun p => decide (|p.1 - p.2| ≤ 20 + |p.2| / 100000))

/-- Modelled from the spec: `Variable.convert` lives in `Variable.py`, which
is not under `src/`; per the spec a conversion returns a new Variable tagged
with the target unit, data rescaled by a registry-provided multiplicative
factor (abstracted as `factor fromUnit toUnit`). -/
def convertVar (factor : String → String → ℚ) (v : Var) (u : String) : Var :=
  { time := v.time, data := v.data.map (fun x => x * factor v.unit u), unit := u }

/-- `_reduceRoundoffErrors` from `stageData`: substitute `s-1` by `d-1`,
else `kg` by `g`, in the unit (converting the variable), else no change. -/
def reduceRoundoffErrors (factor : String → String → ℚ) (v : Var) : Var :=
  if strHas v.unit "s-1" then convertVar factor v (v.unit.replace "s-1" "d-1")
  else if strHas v.unit "kg" then convertVar factor v (v.unit.replace "kg" "g")
  else v

/-- The magnitude-normalization loop of `stageData` (lines 193-198), with the
bounded `while order < -2 and count < 2` unrolled to its two possible passes;
`gO` abstracts `_getOrder` (the mean base-10 order of magnitude of the data,
a floating-point `log10` computation external to exact arithmetic). -/
def magnitudePass (gO : List ℚ → ℚ) (factor : String → String → ℚ) (v : Var) : Var :=
  if gO v.data < -2 then
    let v1 := reduceRoundoffErrors factor v
    if gO v1.data < -2 then reduceRoundoffErrors factor v1 else v1
  else v

/-- The time-intersection step of `stageData` (lines 170-177): if the time
axes differ in length, clip both series to the nearest-sample indices of the
intersected window; `cache` models `self.data` (the observation object cached
on the Confrontation, mutated in place by the clipping). -/
def clippedPair (obsFile : Var) (m : ℚ → ℚ → Var) (cache : Option Var) : Var × Var :=
  let obs0 := cache.getD obsFile
  let t0 := listMinQ obs0.time
  let tf := listMaxQ obs0.time
  let md0 := m t0 tf
  if obs0.time.length ≠ md0.time.length then
    let t0c := qmax t0 (listMinQ md0.time)
    let tfc := qmin tf (listMaxQ md0.time)
    (clipVar t0c tfc obs0, clipVar t0c tfc md0)
  else (obs0, md0)

/-- `Confrontation.stageData` (lines 134-202), for the default `land=False`
configuration: load or reuse the cached observation, extract the model series
over the observation's time extent, clip to the intersected window, check the
axes (raising `VarNotOnTimeScale` / `VarsNotComparable`), run the magnitude
pass on the observation and convert the model to its unit.  Returns the
staged pair (or the typed error) together with the new cached observation
(`self.data` after the in-place clipping). -/
def stageData (obsFile : Var) (m : ℚ → ℚ → Var) (gO : List ℚ → ℚ)
    (factor : String → String → ℚ) (cache : Option Var) :
    Except StageErr (Var × Var) × Var :=
  let obs0 := cache.getD obsFile
  if obs0.time.isEmpty then (Except.error StageErr.notTemporal, obs0)
  else
    let p := clippedPair obsFile m cache
    if p.1.time.length ≠ p.2.time.length then (Except.error StageErr.varNotOnTimeScale, p.1)
    else if allcloseT p.1.time p.2.time then
      let obs2 := magnitudePass gO factor p.1
      (Except.ok (obs2, convertVar factor p.2 obs2.unit), p.1)
    else (Except.error StageErr.varsNotComparable, p.1)

/-! ## Overall score (`Confrontation.computeOverallScore`, lines 339-369)

The per-model netCDF result file is modelled as an association list from
variable names to scalar values; a file that cannot be opened is `none`. -/

/-- The Confrontation's weight map (`self.weight`, lines 97-101). -/
def weight : List (String × ℚ) :=
  [("bias_score", 1), ("rmse_score", 2), ("shift_score", 1), ("iav_score", 1), ("sd_score", 1)]

/-- Dictionary lookup in the weight map (`self.weight[score]`). -/
def lookupW (s : String) : Option ℚ := (weight.find? (fun p => p.1 == s)).map (fun p => p.2)

/-- Read a scalar variable from a dataset (`dataset.variables[v][...]`);
`0` for an absent name (never read on absent names here). -/
def getVarD : List (String × ℚ) → String → ℚ
  | [], _ => 0
  | p :: ps, k => if p.1 = k then p.2 else getVarD ps k

/-- Dictionary membership (`name in dataset.variables.keys()`). -/
def hasVarD : List (String × ℚ) → String → Bool
  | [], _ => false
  | p :: ps, k => decide (p.1 = k) || hasVarD ps k

/-- Store a scalar variable, overwriting the entry if the name exists
(lines 365-368: assign in place if present, else create). -/
def setVarD (ds : List (String × ℚ)) (k : String) (x : ℚ) : List (String × ℚ) :=
  if hasVarD ds k then ds.map (fun p => if p.1 = k then (k, x) else p)
  else ds ++ [(k, x)]

/-- The two-token kind prefix of a metric name
(`"_".join(v.split("_")[:2])`, line 359). -/
def scoreKind (v : String) : String := String.intercalate "_" ((v.splitOn "_").take 2)

/-- Line 353: the variables contributing to overall scores — names containing
`score` but not `overall`. -/
def scoreVars (ds : List (String × ℚ)) : List String :=
  (ds.map (fun p => p.1)).filter (fun v => strHas v "score" && !(strHas v "overall"))

/-- The body of the loop over `variables` (lines 357-362): accumulate
`Σ weight[kind]·value` and `Σ weight[kind]` over the variables matching the
region whose kind is known to the weight map. -/
def scoreSums (ds : List (String × ℚ)) (vars : List String) (region : String) : ℚ × ℚ :=
  vars.foldl
    (fun acc v =>
      if !(strHas v region) then acc
      else
        match lookupW (scoreKind v) with
        | none => acc
        | some w => (acc.1 + w * getVarD ds v, acc.2 + w))
    (0, 0)

/-- One iteration of the region loop (lines 354-368): accumulate the two
sums over the snapshot `vars` of score-variable names, divide by
`max(sum_of_weights, 1e-12)`, and store `overall_score_over_<region>` in the
live dataset. -/
def overallStep (vars : List String) (d : List (String × ℚ)) (region : String) :
    List (String × ℚ) :=
  let s := scoreSums d vars region
  setVarD d ("overall_score_over_" ++ region) (s.1 / qmax s.2 (1 / 10 ^ 12))

/-- `computeOverallScore` on an open dataset: for each region store
`overall_score / max(sum_of_weights, 1e-12)` as `overall_score_over_<region>`. -/
def computeOverallScoreDS (regions : List String) (ds : List (String × ℚ)) :
    List (String × ℚ) :=
  regions.foldl (overallStep (scoreVars ds)) ds

/-- `Confrontation.computeOverallScore` (lines 339-369): if the model's
result file cannot be opened (`none`) the `except: return` makes the whole
call a silent no-op; otherwise the scores are computed and stored. -/
def computeOverallScore (regions : List String) :
    Option (List (String × ℚ)) → Option (List (String × ℚ))
  | none => none
  | some ds => some (computeOverallScoreDS regions ds)

/-- The metrics that contribute to the overall score for a region, as the
spec words it: the stored score variables matching the region whose
two-token kind prefix appears in the weight map. -/
def contributing (ds : List (String × ℚ)) (region : String) : List String :=
  (scoreVars ds).filter (fun v => strHas v region && (lookupW (scoreKind v)).isSome)

/-- The overall score as the spec's formula words it:
`Σ(weight[kind] × value) / max(Σ weight[kind], 1e-12)` over the contributing
metrics of the region. -/
def specOverall (ds : List (String × ℚ)) (region : String) : ℚ :=
  ((contributing ds region).map (fun v => ((lookupW (scoreKind v)).getD 0) * getVarD ds v)).sum /
    qmax ((contributing ds region).map (fun v => (lookupW (scoreKind v)).getD 0)).sum (1 / 10 ^ 12)

/-! ## `GPPFluxnetGlobalMTE.confront` (lines 64-131) -/

/-- The parts of a `ModelResult` that `confront`'s guard reads: the cell-area
and land-fraction grids (absent grids are `none`). -/
structure ModelRes where
  cell_areas : Option (List ℚ)
  land_fraction : Option (List ℚ)
deriving DecidableEq, Repr

/-- The typed error raised by the guard. -/
inductive ConfErr
  | areasNotInModel
deriving DecidableEq, Repr

/-- The observable effects of a `confront` call, in program order. -/
inductive ConfEvent
  | loadObs
  | extractModel
  | writeResult
deriving DecidableEq, Repr

/-- Modelled from the spec: the effects of `confront`'s body after the guard
(`self.getData`, `m.extractTimeSeries`, the netCDF dump); the analysis
internals (`Variable.integrateInTime` etc.) are not under `src/` and are
irrelevant to claim C9, which only needs that these steps come after the
guard. -/
def confrontBody : List ConfEvent :=
  [ConfEvent.loadObs, ConfEvent.extractModel, ConfEvent.writeResult]

/-- `GPPFluxnetGlobalMTE.confront` (lines 64-131): the first statement checks
`m.cell_areas is None or m.land_fraction is None` and raises
`AreasNotInModel` before any observation loading or model extraction;
the result is the outcome together with the trace of performed effects. -/
def confrontMTE (m : ModelRes) : Except ConfErr Unit × List ConfEvent :=
  if m.cell_areas.isNone || m.land_fraction.isNone then
    (Except.error ConfErr.areasNotInModel, [])
  else (Except.ok (), confrontBody)

/-! ## Concrete instances used in witnesses and counterexamples -/

/-- A 23-sample monthly time axis of mid-month stamps starting in
February 1850 (days since 1850-01-01): the first January-aligned sample is
at index 11. -/
def tFebStart : List ℚ :=
  [45, 149/2, 105, 271/2, 166, 393/2, 455/2, 258, 577/2, 319, 699/2,
   761/2, 410, 879/2, 470, 1001/2, 531, 1123/2, 1185/2, 623, 1307/2, 684, 1429/2]

/-- Data for `tFebStart` distinguishing the two year windows. -/
def vFebStart : List ℚ :=
  [100, 0, 0, 0, 0, 0, 0, 0, 0, 0, 0, 0, 0, 0, 0, 0, 0, 0, 0, 0, 0, 0, 7]

/-- An observation whose time axis is longer than the model's extraction:
the first staging call clips the cached observation in place. -/
def obsIdem : Var := ⟨[0, 10, 20], [1, 2, 3], "g"⟩

/-- A deterministic model collaborator holding samples at days 9 and 19,
returning those inside the requested window. -/
def mdlIdem : ℚ → ℚ → Var := fun t0 tf =>
  let pts := [((9 : ℚ), (5 : ℚ)), (19, 6)].filter
    (fun p => decide (t0 ≤ p.1) && decide (p.1 ≤ tf))
  ⟨pts.map (fun p => p.1), pts.map (fun p => p.2), "g"⟩

/-- A stand-in order-of-magnitude function that never triggers rescaling. -/
def gOzero : List ℚ → ℚ := fun _ => 0

/-- The identity unit-conversion factor. -/
def factorOne : String → String → ℚ := fun _ _ => 1

/-- An observation one sample long at day 1020.01. -/
def obsTol : Var := ⟨[102001/100], [1], "g"⟩

/-- A model collaborator whose single sample is at day 1000: it differs from
`obsTol`'s stamp by 20.01 days. -/
def mdlTol : ℚ → ℚ → Var := fun _ _ => ⟨[1000], [2], "g"⟩

/-- Decidable equality of staged results, used to evaluate the theorems on
concrete runs. -/
instance {ε α : Type} [DecidableEq ε] [DecidableEq α] : DecidableEq (Except ε α) := fun x y =>
  match x, y with
  | .ok a, .ok b =>
    if h : a = b then isTrue (by rw [h]) else isFalse (fun hh => h (Except.ok.inj hh))
  | .error a, .error b =>
    if h : a = b then isTrue (by rw [h]) else isFalse (fun hh => h (Except.error.inj hh))
  | .ok _, .error _ => isFalse (fun hh => Except.noConfusion hh)
  | .error _, .ok _ => isFalse (fun hh => Except.noConfusion hh)

/-- An observation with data of order `1e-3` in `kg`, triggering one
magnitude-rescaling pass. -/
def obsResc : Var := ⟨[0], [1/1000], "kg"⟩

/-- A model collaborator matching `obsResc`'s time axis. -/
def mdlResc : ℚ → ℚ → Var := fun _ _ => ⟨[0], [1], "kg"⟩

/-- A stand-in order-of-magnitude function reporting order `-3`. -/
def gOlow : List ℚ → ℚ := fun _ => -3

/-- An observation whose staging performs no clipping. -/
def obsNoClip : Var := ⟨[0, 10], [1, 2], "g"⟩

/-- A model collaborator returning a series of the same length as
`obsNoClip`'s, so no clipping occurs. -/
def mdlNoClip : ℚ → ℚ → Var := fun _ _ => ⟨[1, 11], [4, 5], "g"⟩

/-- A result dataset holding two score metrics for the `global` region. -/
def dsScores : List (String × ℚ) :=
  [("bias_score_over_global", 1/2), ("rmse_score_over_global", 1)]

/-! ## Bridging lemmas -/

/-- `qmin` agrees with the lattice minimum. -/
theorem qmin_eq_min (a b : ℚ) : qmin a b = min a b := by
  unfold qmin
  rcases le_total a b with h | h
  · rw [if_pos h, min_eq_left h]
  · rcases eq_or_lt_of_le h with rfl | hlt
    · simp
    · rw [if_neg (not_le.mpr hlt), min_eq_right h]

/-- `qmax` agrees with the lattice maximum. -/
theorem qmax_eq_max (a b : ℚ) : qmax a b = max a b := by
  unfold qmax
  rcases le_total a b with h | h
  · rw [if_pos h, max_eq_right h]
  · rcases eq_or_lt_of_le h with rfl | hlt
    · simp
    · rw [if_neg (not_le.mpr hlt), max_eq_left h]

/-! ## C10: a missing result file makes `computeOverallScore` a silent no-op -/

/-- C10: for every model whose per-model result file cannot be opened
(`none`), `computeOverallScore` returns silently — it raises no error and
writes no overall-score entry. -/
theorem computeOverallScore_missing_file (regions : List String) :
    computeOverallScore regions none = none := rfl

/-! ## C9: missing area/land-fraction grids fail fast -/

/-- C9: for every model lacking cell-area or land-fraction grids, `confront`
raises the typed error `AreasNotInModel` with an empty effect trace: no
observation loading, model staging, or result writing is attempted, so all
state is unchanged. -/
theorem confront_areas_fail_fast (m : ModelRes)
    (h : m.cell_areas = none ∨ m.land_fraction = none) :
    confrontMTE m = (Except.error ConfErr.areasNotInModel, []) := by
  rcases h with h | h <;> simp [confrontMTE, h]

/-- Witness: a concrete model with no cell-area grid fails fast. -/
theorem confront_areas_fail_fast_witness :
    confrontMTE ⟨none, some []⟩ = (Except.error ConfErr.areasNotInModel, []) :=
  confront_areas_fail_fast ⟨none, some []⟩ (Or.inl rfl)

/-! ## C6: `WindowedTrend` fits the samples OUTSIDE the window -/

/-- C6: `WindowedTrend` evaluated at `t = [0,100,200,300,400,500]`,
`var = [0,1,2,4,8,16]`, `window = 250`.  At index 0 the slid window is
`[0, 250]`; the samples inside it are `(0,0), (100,1), (200,2)` whose
least-squares slope is `73/20` var-units per year (the value the docstring
and the claim require, computed by `windowedTrendInWindow`), but the code
masks exactly those samples and fits the line through `(300,4), (400,8),
(500,16)` instead, returning `219/10`. -/
theorem windowedTrend_outside_window_eval :
    (WindowedTrend [0, 100, 200, 300, 400, 500] [0, 1, 2, 4, 8, 16] 250).get? 0 = some (219/10)
    ∧ (windowedTrendInWindow [0, 100, 200, 300, 400, 500] [0, 1, 2, 4, 8, 16] 250).get? 0 =
      some (73/20)
    ∧ ((219 : ℚ)/10) ≠ 73/20 := by
  with_unfolding_all decide

/-! ## C2 counterexample: the 20-day tolerance is really `20 + 1e-5·|t_mod|` -/

/-- Counterexample to C2 as stated: the observation stamp `1020.01` and the
model stamp `1000` differ by `20.01 > 20` days, yet staging succeeds
(returns `ok`, raising nothing), because `np.allclose(..., atol=20)` keeps
numpy's default relative tolerance `rtol=1e-5` and `20.01 ≤ 20 + 1e-5·1000`. -/
theorem stageData_tolerance_pass_cex :
    ((stageData obsTol mdlTol gOzero factorOne none).1).isOk = true
    ∧ |(102001 : ℚ)/100 - 1000| > 20 := by
  with_unfolding_all decide

/-! ## C3 counterexample: a zero-mean reference makes the score NaN -/

/-- Counterexample to C3 as stated: `ref = pred = [-1, 1]` are finite,
equal-length, and have equal means, yet `Bias(ref, pred, "score")` is NaN
(`0/0` from the division by `mean(ref) = 0`), not `1`, and not in `[0,1]`. -/
theorem bias_score_zero_mean_cex :
    Bias [-1, 1] [-1, 1] "score" = EFloat.nan
    ∧ meanQ [-1, 1] = meanQ [-1, 1]
    ∧ EFloat.nan ≠ EFloat.fin 1 := by
  with_unfolding_all decide

/-! ## C5 counterexample: a February start is not January-realigned -/

/-- Counterexample to C5 as stated: on the 23-sample February-1850-start
monthly series `tFebStart`, the first January-aligned index is 11 (visible to
an `argmin` over the first 12 samples), but `AnnualMean` searches only
`t[:11]` and picks index 0, so the leading partial year (Feb-Dec 1850) is
averaged as if it were a January-aligned year instead of being discarded. -/
theorem annualMean_feb_start_cex :
    argminQ ((tFebStart.take 11).map (fun x => qmod x 365)) = 0
    ∧ argminQ ((tFebStart.take 12).map (fun x => qmod x 365)) = 11
    ∧ AnnualMean tFebStart vFebStart ≠ annualMeanJanAligned tFebStart vFebStart := by
  with_unfolding_all decide

/-! ## C8 counterexample: staging is not idempotent -/

/-- Counterexample to C8 as stated: with observation samples at days
`[0,10,20]` and a model holding samples at days 9 and 19 (returning those in
the requested window), the first staging call clips the cached observation to
`[10,20]`; the second call then requests the narrower window `[10,20]`, gets
only the model sample at 19, and clips again — both calls succeed but return
different `(obs, mod)` pairs. -/
theorem stageData_idempotent_cex :
    (stageData obsIdem mdlIdem gOzero factorOne none).1 =
      Except.ok (Var.mk [10, 20] [2, 3] "g", Var.mk [9, 19] [5, 6] "g")
    ∧ (stageData obsIdem mdlIdem gOzero factorOne
        (some (stageData obsIdem mdlIdem gOzero factorOne none).2)).1 =
      Except.ok (Var.mk [20] [3] "g", Var.mk [19] [6] "g")
    ∧ (Var.mk [10, 20] [2, 3] "g", Var.mk [9, 19] [5, 6] "g") ≠
      (Var.mk [20] [3] "g", Var.mk [19] [6] "g") := by
  with_unfolding_all decide

/-! ## C4: RMSE formula, identity, and concrete values -/

/-- The squared-difference mean of a series with itself is zero. -/
theorem sqDiffMean_self (x : List ℚ) : sqDiffMean x x = 0 := by
  have h : ((x.zip x).map (fun p => (p.1 - p.2) ^ 2)).sum = 0 := by
    induction x with
    | nil => simp
    | cons a t ih => simpa using ih
  simp [sqDiffMean, meanQ, h]

/-- C4: for every pair of equal-length arrays, `rmse(ref, pred)` equals
`sqrt(mean((pred - ref)^2))` and `normalize="maxmin"` divides that value by
`max(ref) - min(ref)`; `rmse(x, x) = 0` for any array; and for
`ref=[1,2,3]`, `pred=[4,5,6]` the results are `3` and `3/2`. -/
theorem rmse_properties :
    (∀ reference prediction : List ℚ, reference.length = prediction.length →
        RootMeanSquaredError reference prediction "none" =
          Real.sqrt ((sqDiffMean reference prediction : ℚ) : ℝ)
        ∧ RootMeanSquaredError reference prediction "maxmin" =
          Real.sqrt ((sqDiffMean reference prediction : ℚ) : ℝ) /
            ((listMaxQ reference - listMinQ reference : ℚ) : ℝ))
    ∧ (∀ x : List ℚ, RootMeanSquaredError x x "none" = 0)
    ∧ RootMeanSquaredError [1, 2, 3] [4, 5, 6] "none" = 3
    ∧ RootMeanSquaredError [1, 2, 3] [4, 5, 6] "maxmin" = 3/2 := by
  have hform : ∀ reference prediction : List ℚ,
      RootMeanSquaredError reference prediction "none" =
        Real.sqrt ((sqDiffMean reference prediction : ℚ) : ℝ)
      ∧ RootMeanSquaredError reference prediction "maxmin" =
        Real.sqrt ((sqDiffMean reference prediction : ℚ) : ℝ) /
          ((listMaxQ reference - listMinQ reference : ℚ) : ℝ) := by
    intro reference prediction
    constructor
    · simp [RootMeanSquaredError]
    · simp [RootMeanSquaredError]
  refine ⟨fun r p _ => hform r p, ?_, ?_, ?_⟩
  · intro x
    rw [(hform x x).1, sqDiffMean_self]
    simp
  · rw [(hform [1, 2, 3] [4, 5, 6]).1,
      show sqDiffMean [1, 2, 3] [4, 5, 6] = 9 by with_unfolding_all decide]
    rw [show (((9 : ℚ) : ℝ)) = (3 : ℝ) ^ 2 by norm_num]
    rw [Real.sqrt_sq (by norm_num : (0 : ℝ) ≤ 3)]
  · rw [(hform [1, 2, 3] [4, 5, 6]).2,
      show sqDiffMean [1, 2, 3] [4, 5, 6] = 9 by with_unfolding_all decide,
      show listMaxQ [1, 2, 3] = 3 by with_unfolding_all decide,
      show listMinQ [1, 2, 3] = 1 by with_unfolding_all decide]
    rw [show (((9 : ℚ) : ℝ)) = (3 : ℝ) ^ 2 by norm_num]
    rw [Real.sqrt_sq (by norm_num : (0 : ℝ) ≤ 3)]
    norm_num

/-- Witness: the RMSE formula evaluated at the documented example. -/
theorem rmse_properties_witness :
    RootMeanSquaredError [1, 2, 3] [4, 5, 6] "none" =
      Real.sqrt ((sqDiffMean [1, 2, 3] [4, 5, 6] : ℚ) : ℝ) :=
  (rmse_properties.1 [1, 2, 3] [4, 5, 6] (by decide)).1

/-! ## C3: the bias score formula (amended: nonzero reference mean) -/

/-- `edivE` on finite values unfolds to the IEEE division cases. -/
theorem edivE_fin_fin (a b : ℚ) : edivE (EFloat.fin a) (EFloat.fin b) =
    if b = 0 then (if a = 0 then EFloat.nan else EFloat.inf (decide (0 < a)))
    else EFloat.fin (a / b) := rfl

/-- `eabs` on a finite value. -/
theorem eabs_fin (q : ℚ) : eabs (EFloat.fin q) = EFloat.fin |q| := rfl

/-- `esub1` on a finite value. -/
theorem esub1_fin (q : ℚ) : esub1 (EFloat.fin q) = EFloat.fin (1 - q) := rfl

/-- `clip01` on a finite value is the lattice clamp. -/
theorem clip01_fin (q : ℚ) : clip01 (EFloat.fin q) = EFloat.fin (max 0 (min 1 q)) := by
  show EFloat.fin (qmax 0 (qmin 1 q)) = _
  rw [qmax_eq_max, qmin_eq_min]

/-- C3 (amended to references with nonzero mean): for equal-length `ref` and
`pred` with `mean(ref) ≠ 0`, `Bias(ref, pred, "score")` is the finite value
`clip(1 - |(mean(pred) - mean(ref)) / mean(ref)|, 0, 1)`, which lies in
`[0, 1]` and equals 1 exactly when the two means are equal.  (When
`mean(ref) = 0` the score is NaN or a clipped infinity — see the
counterexample.) -/
theorem bias_score_formula (reference prediction : List ℚ)
    (hlen : reference.length = prediction.length) (hmean : meanQ reference ≠ 0) :
    Bias reference prediction "score" =
      EFloat.fin (max 0 (min 1 (1 - |(meanQ prediction - meanQ reference) / meanQ reference|)))
    ∧ (0 : ℚ) ≤ max 0 (min 1 (1 - |(meanQ prediction - meanQ reference) / meanQ reference|))
    ∧ max 0 (min 1 (1 - |(meanQ prediction - meanQ reference) / meanQ reference|)) ≤ 1
    ∧ (Bias reference prediction "score" = EFloat.fin 1 ↔ meanQ prediction = meanQ reference) := by
  have hb : Bias reference prediction "score" =
      EFloat.fin (max 0 (min 1 (1 - |(meanQ prediction - meanQ reference) / meanQ reference|))) := by
    simp only [Bias]
    rw [if_neg (show ¬("score" = "maxmin") by decide), if_pos trivial]
    rw [edivE_fin_fin, if_neg hmean, eabs_fin, esub1_fin, clip01_fin]
  refine ⟨hb, le_max_left _ _, max_le zero_le_one (min_le_left _ _), ?_⟩
  rw [hb]
  constructor
  · intro h
    have h1 : max 0 (min 1 (1 - |(meanQ prediction - meanQ reference) / meanQ reference|)) = 1 :=
      EFloat.fin.inj h
    have h2 : min 1 (1 - |(meanQ prediction - meanQ reference) / meanQ reference|) = 1 := by
      rcases max_eq_iff.mp h1 with ⟨h0, _⟩ | ⟨hm, _⟩
      · exact absurd h0 (by norm_num)
      · exact hm
    have h3 : (1 : ℚ) ≤ 1 - |(meanQ prediction - meanQ reference) / meanQ reference| :=
      min_eq_left_iff.mp h2
    have h4 : |(meanQ prediction - meanQ reference) / meanQ reference| ≤ 0 := by linarith
    have h5 : (meanQ prediction - meanQ reference) / meanQ reference = 0 :=
      abs_eq_zero.mp (le_antisymm h4 (abs_nonneg _))
    rcases div_eq_zero_iff.mp h5 with h6 | h6
    · linarith [sub_eq_zero.mp h6]
    · exact absurd h6 hmean
  · intro h
    rw [h]
    simp

/-- Witness: the bias score of two series with equal nonzero means is 1. -/
theorem bias_score_formula_witness :
    Bias [1, 2, 3] [3, 2, 1] "score" =
      EFloat.fin (max 0 (min 1 (1 - |(meanQ [3, 2, 1] - meanQ [1, 2, 3]) / meanQ [1, 2, 3]|)))
    ∧ (0 : ℚ) ≤ max 0 (min 1 (1 - |(meanQ [3, 2, 1] - meanQ [1, 2, 3]) / meanQ [1, 2, 3]|))
    ∧ max 0 (min 1 (1 - |(meanQ [3, 2, 1] - meanQ [1, 2, 3]) / meanQ [1, 2, 3]|)) ≤ 1
    ∧ (Bias [1, 2, 3] [3, 2, 1] "score" = EFloat.fin 1 ↔ meanQ [3, 2, 1] = meanQ [1, 2, 3]) :=
  bias_score_formula [1, 2, 3] [3, 2, 1] (by decide) (by with_unfolding_all decide)

/-! ## C2: the alignment tolerance (amended: `20 + 1e-5·|t_mod|`) -/

/-- Pointwise characterization of `np.allclose(obs, mod, atol=20)` with the
default `rtol = 1e-5`. -/
theorem allcloseT_iff (a : List ℚ) : ∀ b : List ℚ, a.length = b.length →
    (allcloseT a b = true ↔
      ∀ i, i < a.length → |a.getD i 0 - b.getD i 0| ≤ 20 + |b.getD i 0| / 100000) := by
  induction a with
  | nil => intro b h; simp [allcloseT]
  | cons x xs ih =>
    intro b h
    cases b with
    | nil => simp at h
    | cons y ys =>
      have hlen : xs.length = ys.length := by simpa using h
      simp only [allcloseT, List.zip_cons_cons, List.all_cons, Bool.and_eq_true,
        decide_eq_true_eq] at *
      rw [ih ys hlen]
      constructor
      · rintro ⟨h1, h2⟩ i hi
        cases i with
        | zero => simpa using h1
        | succ j =>
          have hj : j < xs.length := by simpa using hi
          simpa using h2 j hj
      · intro hall
        refine ⟨by simpa using hall 0 (by simp), fun j hj => ?_⟩
        have := hall (j + 1) (by simpa using hj)
        simpa using this

/-- `stageData` raises `VarsNotComparable` exactly when the observation has a
time axis, the clipped axes have equal lengths, and the `allclose` test
fails. -/
theorem stageData_varsNotComparable_iff (obsFile : Var) (m : ℚ → ℚ → Var) (gO : List ℚ → ℚ)
    (factor : String → String → ℚ) (cache : Option Var) :
    (stageData obsFile m gO factor cache).1 = Except.error StageErr.varsNotComparable ↔
      (cache.getD obsFile).time.isEmpty = false
      ∧ (clippedPair obsFile m cache).1.time.length = (clippedPair obsFile m cache).2.time.length
      ∧ allcloseT (clippedPair obsFile m cache).1.time (clippedPair obsFile m cache).2.time
          = false := by
  unfold stageData
  by_cases h0 : (cache.getD obsFile).time.isEmpty
  · simp [h0]
  · simp only [h0, if_false, Bool.false_eq_true]
    by_cases h1 : (clippedPair obsFile m cache).1.time.length ≠
        (clippedPair obsFile m cache).2.time.length
    · simp [h1]
    · have h1' : (clippedPair obsFile m cache).1.time.length =
          (clippedPair obsFile m cache).2.time.length := by omega
      by_cases h2 : allcloseT (clippedPair obsFile m cache).1.time
          (clippedPair obsFile m cache).2.time
      · simp [h1, h2]
      · simp [h1, h1', h2, Bool.not_eq_true] at *

/-- C2 (amended): after clipping, staging raises `VarsNotComparable` exactly
when some pair of time stamps violates `|t_obs - t_mod| ≤ 20 + |t_mod|/100000`
(numpy's `allclose` with `atol=20` and default `rtol=1e-5`); in particular
axes differing by exactly 20 days at every sample always pass, while a
20.01-day difference raises only when it exceeds `20 + |t_mod|/100000`
(e.g. when `|t_mod| < 1000` days). -/
theorem stageData_tolerance :
    (∀ a b : List ℚ, a.length = b.length →
        ((allcloseT a b = true ↔
            ∀ i, i < a.length → |a.getD i 0 - b.getD i 0| ≤ 20 + |b.getD i 0| / 100000)
          ∧ ((∀ i, i < a.length → |a.getD i 0 - b.getD i 0| = 20) → allcloseT a b = true)))
    ∧ (∀ (obsFile : Var) (m : ℚ → ℚ → Var) (gO : List ℚ → ℚ) (factor : String → String → ℚ)
        (cache : Option Var),
        ((stageData obsFile m gO factor cache).1 = Except.error StageErr.varsNotComparable ↔
          (cache.getD obsFile).time.isEmpty = false
          ∧ (clippedPair obsFile m cache).1.time.length =
              (clippedPair obsFile m cache).2.time.length
          ∧ allcloseT (clippedPair obsFile m cache).1.time
              (clippedPair obsFile m cache).2.time = false)) := by
  constructor
  · intro a b h
    refine ⟨allcloseT_iff a b h, fun hall => ?_⟩
    rw [allcloseT_iff a b h]
    intro i hi
    rw [hall i hi]
    have : (0 : ℚ) ≤ |b.getD i 0| / 100000 := by positivity
    linarith
  · exact stageData_varsNotComparable_iff

/-- Witness: two one-sample axes exactly 20 days apart pass the check. -/
theorem stageData_tolerance_witness : allcloseT [20] [0] = true :=
  (stageData_tolerance.1 [20] [0] rfl).2 (fun i hi => by
    have h0 : i = 0 := by simpa using hi
    subst h0
    with_unfolding_all decide)

/-! ## C7: the magnitude-rescaling pass and the final unit conversion -/

/-- The bounded rescaling loop performs 0, 1 or 2 passes, each applied only
while the order of magnitude is below `-2`. -/
theorem magnitudePass_cases (gO : List ℚ → ℚ) (factor : String → String → ℚ) (v : Var) :
    ((-2 : ℚ) ≤ gO v.data → magnitudePass gO factor v = v)
    ∧ (gO v.data < -2 → (-2 : ℚ) ≤ gO (reduceRoundoffErrors factor v).data →
        magnitudePass gO factor v = reduceRoundoffErrors factor v)
    ∧ (gO v.data < -2 → gO (reduceRoundoffErrors factor v).data < -2 →
        magnitudePass gO factor v =
          reduceRoundoffErrors factor (reduceRoundoffErrors factor v)) := by
  unfold magnitudePass
  refine ⟨fun h => ?_, fun h1 h2 => ?_, fun h1 h2 => ?_⟩
  · rw [if_neg (not_lt.mpr h)]
  · rw [if_pos h1, if_neg (not_lt.mpr h2)]
  · rw [if_pos h1, if_pos h2]

/-- C7: whenever staging succeeds, the returned observation is the clipped
observation with at most two unit-substitution passes applied — each pass
taken only while the mean order of magnitude of the data is below `-2` —
and the returned model is the clipped model converted to the observation's
(possibly rescaled) unit, so the pair carries the same unit. -/
theorem stageData_rescale_units (obsFile : Var) (m : ℚ → ℚ → Var) (gO : List ℚ → ℚ)
    (factor : String → String → ℚ) (cache : Option Var) (p : Var × Var)
    (hok : (stageData obsFile m gO factor cache).1 = Except.ok p) :
    p.2.unit = p.1.unit
    ∧ p.1 = magnitudePass gO factor (clippedPair obsFile m cache).1
    ∧ p.2 = convertVar factor (clippedPair obsFile m cache).2 p.1.unit
    ∧ ((-2 : ℚ) ≤ gO (clippedPair obsFile m cache).1.data →
        p.1 = (clippedPair obsFile m cache).1)
    ∧ (gO (clippedPair obsFile m cache).1.data < -2 →
        (-2 : ℚ) ≤ gO (reduceRoundoffErrors factor (clippedPair obsFile m cache).1).data →
        p.1 = reduceRoundoffErrors factor (clippedPair obsFile m cache).1)
    ∧ (gO (clippedPair obsFile m cache).1.data < -2 →
        gO (reduceRoundoffErrors factor (clippedPair obsFile m cache).1).data < -2 →
        p.1 = reduceRoundoffErrors factor
          (reduceRoundoffErrors factor (clippedPair obsFile m cache).1)) := by
  unfold stageData at hok
  set q := clippedPair obsFile m cache with hq
  by_cases h0 : (cache.getD obsFile).time.isEmpty
  · simp [h0] at hok
  · simp only [h0] at hok
    by_cases h1 : q.1.time.length ≠ q.2.time.length
    · simp [← hq, h1] at hok
    · simp only [← hq, h1, if_false, if_neg h1] at hok
      by_cases h2 : allcloseT q.1.time q.2.time
      · simp only [h2, if_true, if_pos h2] at hok
        have hp : p = (magnitudePass gO factor q.1,
            convertVar factor q.2 (magnitudePass gO factor q.1).unit) :=
          (Except.ok.inj hok).symm
        subst hp
        refine ⟨rfl, rfl, rfl, ?_, ?_, ?_⟩
        · intro h
          simp only [(magnitudePass_cases gO factor q.1).1 h]
        · intro ha hb
          simp only [(magnitudePass_cases gO factor q.1).2.1 ha hb]
        · intro ha hb
          simp only [(magnitudePass_cases gO factor q.1).2.2 ha hb]
      · simp [h2] at hok

/-- Witness: a concrete staging run in unit `kg` whose observation has order
of magnitude `-3`: one pass rewrites the unit to `g`, a second pass leaves it
unchanged, and the model is converted to `g` as well. -/
theorem stageData_rescale_units_witness :
    (Var.mk [0] [1/1000] "g", Var.mk [0] [1] "g").2.unit =
      (Var.mk [0] [1/1000] "g", Var.mk [0] [1] "g").1.unit
    ∧ (Var.mk [0] [1/1000] "g", Var.mk [0] [1] "g").1 =
        magnitudePass gOlow factorOne (clippedPair obsResc mdlResc none).1
    ∧ (Var.mk [0] [1/1000] "g", Var.mk [0] [1] "g").2 =
        convertVar factorOne (clippedPair obsResc mdlResc none).2
          (Var.mk [0] [1/1000] "g", Var.mk [0] [1] "g").1.unit
    ∧ ((-2 : ℚ) ≤ gOlow (clippedPair obsResc mdlResc none).1.data →
        (Var.mk [0] [1/1000] "g", Var.mk [0] [1] "g").1 = (clippedPair obsResc mdlResc none).1)
    ∧ (gOlow (clippedPair obsResc mdlResc none).1.data < -2 →
        (-2 : ℚ) ≤ gOlow
          (reduceRoundoffErrors factorOne (clippedPair obsResc mdlResc none).1).data →
        (Var.mk [0] [1/1000] "g", Var.mk [0] [1] "g").1 =
          reduceRoundoffErrors factorOne (clippedPair obsResc mdlResc none).1)
    ∧ (gOlow (clippedPair obsResc mdlResc none).1.data < -2 →
        gOlow (reduceRoundoffErrors factorOne (clippedPair obsResc mdlResc none).1).data < -2 →
        (Var.mk [0] [1/1000] "g", Var.mk [0] [1] "g").1 =
          reduceRoundoffErrors factorOne
            (reduceRoundoffErrors factorOne (clippedPair obsResc mdlResc none).1)) :=
  stageData_rescale_units obsResc mdlResc gOlow factorOne none
    (Var.mk [0] [1/1000] "g", Var.mk [0] [1] "g") (by with_unfolding_all decide)

/-! ## C8: idempotence holds when the first call performs no clipping -/

/-- C8 (amended): if the first staging call performs no time clipping (the
observation and the extracted model series already have time axes of equal
length), the second call — which reuses the cached observation mutated by
the first — returns exactly the same result; in general the in-place
clipping of the cache breaks idempotence (see the counterexample). -/
theorem stageData_idempotent_noclip (obsFile : Var) (m : ℚ → ℚ → Var) (gO : List ℚ → ℚ)
    (factor : String → String → ℚ)
    (hnc : obsFile.time.length =
      (m (listMinQ obsFile.time) (listMaxQ obsFile.time)).time.length) :
    stageData obsFile m gO factor (some (stageData obsFile m gO factor none).2) =
      stageData obsFile m gO factor none := by
  have hcp : clippedPair obsFile m none =
      (obsFile, m (listMinQ obsFile.time) (listMaxQ obsFile.time)) := by
    unfold clippedPair
    simp only [Option.getD_none]
    rw [if_neg (by omega)]
  have hcache : (stageData obsFile m gO factor none).2 = obsFile := by
    unfold stageData
    simp only [Option.getD_none, hcp]
    split
    · rfl
    · split
      · rfl
      · split <;> rfl
  rw [hcache]
  unfold stageData clippedPair
  simp only [Option.getD_some, Option.getD_none]

/-- Witness: staging twice with a model that needs no clipping gives
identical results. -/
theorem stageData_idempotent_witness :
    stageData obsNoClip mdlNoClip gOzero factorOne
        (some (stageData obsNoClip mdlNoClip gOzero factorOne none).2) =
      stageData obsNoClip mdlNoClip gOzero factorOne none :=
  stageData_idempotent_noclip obsNoClip mdlNoClip gOzero factorOne (by with_unfolding_all decide)

/-! ## C5: the yearly block structure of `AnnualMean` (amended begin index) -/

/-- `reshape12` of a list of length `12·m` has `m` rows. -/
theorem reshape12_length (xs : List ℚ) (m : Nat) (h : xs.length = 12 * m) :
    (reshape12 xs).length = m := by
  simp [reshape12, h, Nat.mul_div_cancel_left m (by norm_num : 0 < 12)]

/-- Row `k` of `reshape12` is the `k`-th consecutive 12-sample block. -/
theorem reshape12_getElem (xs : List ℚ) (m k : Nat) (h : xs.length = 12 * m) (hk : k < m) :
    (reshape12 xs)[k]? = some ((xs.drop (12 * k)).take 12) := by
  have hdiv : xs.length / 12 = m := by rw [h]; exact Nat.mul_div_cancel_left m (by norm_num)
  simp [reshape12, hdiv, List.getElem?_range hk]

/-- C5 (amended): `AnnualMean` starts at `begin = argmin(t[:11] % 365)` — the
first January-aligned index whenever the series does not start in February
(a February start is not realigned, see the counterexample) — discards the
samples before `begin` and any trailing partial year, and returns one
day-weighted mean time and value per whole 12-sample year, weighted by the
canonical 28/30/31-day month lengths over the 365-day year. -/
theorem annualMean_blocks (t var : List ℚ) (h12 : 12 ≤ t.length)
    (hlen : var.length = t.length) :
    (AnnualMean t var).1.length = (t.length - annualBegin t) / 12
    ∧ (AnnualMean t var).2.length = (t.length - annualBegin t) / 12
    ∧ ∀ k, k < (t.length - annualBegin t) / 12 →
        (AnnualMean t var).1[k]? =
          some (wavg ((t.drop (annualBegin t + 12 * k)).take 12))
        ∧ (AnnualMean t var).2[k]? =
          some (wavg ((var.drop (annualBegin t + 12 * k)).take 12)) := by
  set b := annualBegin t with hb
  set ny := (t.length - b) / 12 with hny
  have hwin : ∀ u : List ℚ, u.length = t.length →
      ((u.drop b).take (b + ny * 12 - b)).length = 12 * ny := by
    intro u hu
    have h1 : b + ny * 12 - b = ny * 12 := by omega
    have h2 : ny * 12 ≤ u.length - b := by
      rw [hu]
      exact Nat.div_mul_le_self (t.length - b) 12
    rw [h1, List.length_take, List.length_drop, hu]
    omega
  have hslice : ∀ (u : List ℚ), u.length = t.length → ∀ k, k < ny →
      (((u.drop b).take (b + ny * 12 - b)).drop (12 * k)).take 12 =
        (u.drop (b + 12 * k)).take 12 := by
    intro u hu k hk
    have h1 : b + ny * 12 - b = ny * 12 := by omega
    rw [h1, List.drop_take, List.take_take, List.drop_drop]
    have h2 : 12 ≤ ny * 12 - 12 * k := by
      have : k + 1 ≤ ny := hk
      calc 12 = 12 * (k + 1) - 12 * k := by omega
      _ ≤ ny * 12 - 12 * k := by
        have : 12 * (k + 1) ≤ ny * 12 := by nlinarith
        omega
    rw [min_eq_left h2]
  refine ⟨?_, ?_, ?_⟩
  · show ((reshape12 ((t.drop b).take (b + ny * 12 - b))).map wavg).length = ny
    rw [List.length_map, reshape12_length _ ny (hwin t rfl)]
  · show ((reshape12 ((var.drop b).take (b + ny * 12 - b))).map wavg).length = ny
    rw [List.length_map, reshape12_length _ ny (hwin var hlen)]
  · intro k hk
    constructor
    · show ((reshape12 ((t.drop b).take (b + ny * 12 - b))).map wavg)[k]? = _
      rw [List.getElem?_map, reshape12_getElem _ ny k (hwin t rfl) hk]
      rw [hslice t rfl k hk]
      rfl
    · show ((reshape12 ((var.drop b).take (b + ny * 12 - b))).map wavg)[k]? = _
      rw [List.getElem?_map, reshape12_getElem _ ny k (hwin var hlen) hk]
      rw [hslice var hlen k hk]
      rfl

/-- Witness: the block structure evaluated on a concrete 23-sample series. -/
theorem annualMean_blocks_witness :
    (AnnualMean tFebStart vFebStart).1.length =
      (tFebStart.length - annualBegin tFebStart) / 12
    ∧ (AnnualMean tFebStart vFebStart).2.length =
      (tFebStart.length - annualBegin tFebStart) / 12
    ∧ ∀ k, k < (tFebStart.length - annualBegin tFebStart) / 12 →
        (AnnualMean tFebStart vFebStart).1[k]? =
          some (wavg ((tFebStart.drop (annualBegin tFebStart + 12 * k)).take 12))
        ∧ (AnnualMean tFebStart vFebStart).2[k]? =
          some (wavg ((vFebStart.drop (annualBegin tFebStart + 12 * k)).take 12)) :=
  annualMean_blocks tFebStart vFebStart (by decide) (by decide)

/-! ## C1: the overall score aggregation -/

/-- Reading back the key just stored retrieves the stored value (the
overwrite case and the create case of lines 365-368). -/
theorem getVarD_setVarD_self (ds : List (String × ℚ)) (k : String) (x : ℚ) :
    getVarD (setVarD ds k x) k = x := by
  unfold setVarD
  by_cases hh : hasVarD ds k
  · rw [if_pos hh]
    induction ds with
    | nil => simp [hasVarD] at hh
    | cons p ps ih =>
      by_cases hp : p.1 = k
      · simp [getVarD, hp]
      · have hh' : hasVarD ps k := by
          have := hh
          simp only [hasVarD, Bool.or_eq_true, decide_eq_true_eq] at this
          rcases this with h | h
          · exact absurd h hp
          · exact h
        simpa [getVarD, hp] using ih hh'
  · rw [if_neg hh]
    induction ds with
    | nil => simp [getVarD]
    | cons p ps ih =>
      have hp : ¬(p.1 = k) := by
        intro hp
        exact hh (by simp [hasVarD, hp])
      have hh' : ¬(hasVarD ps k = true) := by
        intro h
        exact hh (by simp [hasVarD, h])
      simpa [getVarD, hp] using ih hh'

/-- Storing one key leaves every other key's value unchanged. -/
theorem getVarD_setVarD_ne (ds : List (String × ℚ)) (k k' : String) (x : ℚ)
    (h : k' ≠ k) :
    getVarD (setVarD ds k x) k' = getVarD ds k' := by
  unfold setVarD
  by_cases hh : hasVarD ds k
  · rw [if_pos hh]
    clear hh
    induction ds with
    | nil => rfl
    | cons p ps ih =>
      by_cases hp : p.1 = k
      · have hne : ¬((k, x).1 = k') := fun hc => h hc.symm
        simp only [List.map_cons, if_pos hp, getVarD, hne, if_false]
        have hpk' : ¬(p.1 = k') := fun hc => h (by rw [← hc, hp])
        rw [if_neg hpk']
        exact ih
      · simp only [List.map_cons, if_neg hp, getVarD]
        by_cases hpk : p.1 = k'
        · rw [if_pos hpk, if_pos hpk]
        · rw [if_neg hpk, if_neg hpk]
          exact ih
  · rw [if_neg hh]
    induction ds with
    | nil =>
      have hne : ¬((k, x).1 = k') := fun hc => h hc.symm
      simp [getVarD, hne]
    | cons p ps ih =>
      have hh' : ¬(hasVarD ps k = true) := by
        intro hx
        exact hh (by simp [hasVarD, hx])
      by_cases hpk : p.1 = k'
      · simp [getVarD, hpk]
      · simp only [List.cons_append, getVarD, if_neg hpk]
        exact ih hh'

/-- The two accumulators of the region loop compute the filtered weighted
sums, for any starting accumulator. -/
theorem scoreSums_go (ds : List (String × ℚ)) (region : String) :
    ∀ (vars : List String) (a b : ℚ),
      vars.foldl
        (fun acc v =>
          if !(strHas v region) then acc
          else
            match lookupW (scoreKind v) with
            | none => acc
            | some w => (acc.1 + w * getVarD ds v, acc.2 + w))
        (a, b) =
      (a + ((vars.filter (fun v => strHas v region && (lookupW (scoreKind v)).isSome)).map
          (fun v => ((lookupW (scoreKind v)).getD 0) * getVarD ds v)).sum,
       b + ((vars.filter (fun v => strHas v region && (lookupW (scoreKind v)).isSome)).map
          (fun v => (lookupW (scoreKind v)).getD 0)).sum) := by
  intro vars
  induction vars with
  | nil => intro a b; simp
  | cons v vs ih =>
    intro a b
    by_cases hr : strHas v region
    · simp only [List.foldl_cons, hr, Bool.not_true, Bool.false_eq_true, if_false]
      cases hw : lookupW (scoreKind v) with
      | none =>
        have hfilter : (v :: vs).filter
            (fun v => strHas v region && (lookupW (scoreKind v)).isSome) =
            vs.filter (fun v => strHas v region && (lookupW (scoreKind v)).isSome) := by
          simp [List.filter_cons, hr, hw]
        rw [hfilter]
        exact ih a b
      | some w =>
        have hfilter : (v :: vs).filter
            (fun v => strHas v region && (lookupW (scoreKind v)).isSome) =
            v :: vs.filter (fun v => strHas v region && (lookupW (scoreKind v)).isSome) := by
          simp [List.filter_cons, hr, hw]
        rw [hfilter]
        simp only [List.map_cons, List.sum_cons, hw, Option.getD_some]
        rw [ih (a + w * getVarD ds v) (b + w)]
        rw [Prod.mk.injEq]
        constructor <;> ring
    · have hr' : (strHas v region) = false := by simpa using hr
      simp only [List.foldl_cons, hr', Bool.not_false, if_true]
      have hfilter : (v :: vs).filter
          (fun v => strHas v region && (lookupW (scoreKind v)).isSome) =
          vs.filter (fun v => strHas v region && (lookupW (scoreKind v)).isSome) := by
        simp [List.filter_cons, hr']
      rw [hfilter]
      exact ih a b

/-- `scoreSums` equals the spec's two sums over the contributing metrics. -/
theorem scoreSums_eq (ds : List (String × ℚ)) (vars : List String) (region : String) :
    scoreSums ds vars region =
      (((vars.filter (fun v => strHas v region && (lookupW (scoreKind v)).isSome)).map
          (fun v => ((lookupW (scoreKind v)).getD 0) * getVarD ds v)).sum,
       ((vars.filter (fun v => strHas v region && (lookupW (scoreKind v)).isSome)).map
          (fun v => (lookupW (scoreKind v)).getD 0)).sum) := by
  unfold scoreSums
  rw [scoreSums_go ds region vars 0 0]
  simp

/-- A prefix match extends along an appended tail. -/
theorem charsPre_append (a b c : List Char) (h : charsPre a b = true) :
    charsPre a (b ++ c) = true := by
  induction a generalizing b with
  | nil => rfl
  | cons x xs ih =>
    cases b with
    | nil => simp [charsPre] at h
    | cons y ys =>
      simp only [charsPre, Bool.and_eq_true] at h ⊢
      exact ⟨h.1, ih ys h.2⟩

/-- A prefix is in particular a contiguous substring. -/
theorem charsInf_of_charsPre (a b : List Char) (h : charsPre a b = true) :
    charsInf a b = true := by
  cases b with
  | nil => simpa [charsInf] using h
  | cons y ys => simp [charsInf, h]

/-- The stored key `overall_score_over_<region>` contains `overall`, so it is
never read back as a contributing score variable. -/
theorem strHas_overall_key (r : String) :
    strHas ("overall_score_over_" ++ r) "overall" = true := by
  unfold strHas
  rw [String.data_append]
  exact charsInf_of_charsPre _ _
    (charsPre_append _ _ _ (by with_unfolding_all decide))

/-- Distinct regions store under distinct keys. -/
theorem overall_key_injective (r r' : String)
    (h : ("overall_score_over_" ++ r : String) = "overall_score_over_" ++ r') : r = r' := by
  have hd := congrArg String.data h
  rw [String.data_append, String.data_append] at hd
  have hc := List.append_cancel_left hd
  cases r
  cases r'
  exact congrArg String.mk hc

/-- Score variables never contain `overall` (line 353's filter). -/
theorem scoreVars_no_overall (ds : List (String × ℚ)) (v : String)
    (hv : v ∈ scoreVars ds) : strHas v "overall" = false := by
  unfold scoreVars at hv
  have hm := (List.mem_filter.mp hv).2
  simp only [Bool.and_eq_true, Bool.not_eq_true'] at hm
  exact hm.2

/-- The region loop reads only non-`overall` variables, whose values agree
with the original dataset throughout the fold. -/
theorem scoreSums_reads (ds d : List (String × ℚ)) (region : String)
    (hP : ∀ v, strHas v "overall" = false → getVarD d v = getVarD ds v) :
    scoreSums d (scoreVars ds) region = scoreSums ds (scoreVars ds) region := by
  rw [scoreSums_eq, scoreSums_eq]
  congr 1
  apply congrArg List.sum
  apply List.map_congr_left
  intro v hv
  have hmem : v ∈ scoreVars ds := (List.mem_filter.mp hv).1
  rw [hP v (scoreVars_no_overall ds v hmem)]

/-- One region iteration stores exactly the spec's overall score. -/
theorem overallStep_stores (ds d : List (String × ℚ)) (region : String)
    (hP : ∀ v, strHas v "overall" = false → getVarD d v = getVarD ds v) :
    getVarD (overallStep (scoreVars ds) d region) ("overall_score_over_" ++ region) =
      specOverall ds region := by
  unfold overallStep
  rw [getVarD_setVarD_self, scoreSums_reads ds d region hP, scoreSums_eq]
  unfold specOverall contributing
  rfl

/-- The region fold stores the spec's overall score for every processed
region and preserves previously stored overall scores. -/
theorem overall_fold_inv (ds : List (String × ℚ)) :
    ∀ (rs : List String) (d : List (String × ℚ)),
      (∀ v, strHas v "overall" = false → getVarD d v = getVarD ds v) →
      (∀ r0, r0 ∈ rs →
          getVarD (rs.foldl (overallStep (scoreVars ds)) d) ("overall_score_over_" ++ r0) =
            specOverall ds r0)
      ∧ (∀ r0, getVarD d ("overall_score_over_" ++ r0) = specOverall ds r0 →
          getVarD (rs.foldl (overallStep (scoreVars ds)) d) ("overall_score_over_" ++ r0) =
            specOverall ds r0) := by
  intro rs
  induction rs with
  | nil =>
    intro d hP
    exact ⟨fun r0 h => absurd h (List.not_mem_nil r0), fun r0 h => h⟩
  | cons r rs ih =>
    intro d hP
    have hP' : ∀ v, strHas v "overall" = false →
        getVarD (overallStep (scoreVars ds) d r) v = getVarD ds v := by
      intro v hv
      unfold overallStep
      rw [getVarD_setVarD_ne]
      · exact hP v hv
      · intro hc
        rw [hc, strHas_overall_key r] at hv
        simp at hv
    have hstep := overallStep_stores ds d r hP
    constructor
    · intro r0 hr0
      rw [List.foldl_cons]
      rcases List.mem_cons.mp hr0 with rfl | hr0'
      · exact (ih _ hP').2 r0 hstep
      · exact (ih _ hP').1 r0 hr0'
    · intro r0 h0
      rw [List.foldl_cons]
      by_cases hrr : ("overall_score_over_" ++ r0 : String) = "overall_score_over_" ++ r
      · have heq : r0 = r := overall_key_injective r0 r hrr
        subst heq
        exact (ih _ hP').2 r0 hstep
      · have hkeep : getVarD (overallStep (scoreVars ds) d r) ("overall_score_over_" ++ r0) =
            getVarD d ("overall_score_over_" ++ r0) := by
          unfold overallStep
          exact getVarD_setVarD_ne d _ _ _ hrr
        exact (ih _ hP').2 r0 (hkeep.trans h0)

/-- C1: for every region in the region list, `computeOverallScore` stores as
`overall_score_over_<region>` (overwriting any existing entry) the value
`Σ(weight[kind]·value) / max(Σ weight[kind], 1e-12)` over exactly the stored
score metrics matching the region whose two-token kind prefix is in the
weight map; when no score metrics contribute, the stored value is `0` —
no NaN and no exception. -/
theorem computeOverallScore_spec (regions : List String) (ds : List (String × ℚ))
    (region : String) (hr : region ∈ regions) :
    getVarD (computeOverallScoreDS regions ds) ("overall_score_over_" ++ region) =
      specOverall ds region
    ∧ (contributing ds region = [] → specOverall ds region = 0) := by
  constructor
  · exact (overall_fold_inv ds regions ds (fun v _ => rfl)).1 region hr
  · intro hc
    unfold specOverall
    rw [hc]
    simp

/-- Witness: a concrete dataset with two score metrics for `global`. -/
theorem computeOverallScore_spec_witness :
    getVarD (computeOverallScoreDS ["global"] dsScores) ("overall_score_over_" ++ "global") =
      specOverall dsScores "global"
    ∧ (contributing dsScores "global" = [] → specOverall dsScores "global" = 0) :=
  computeOverallScore_spec ["global"] dsScores "global" (by simp)
